import Mathlib

/-!
Verification of the learning-lab document-processing pipeline
(`services/docProcessingQueue.js`, `controllers/generateController.js`,
`models/documentModel.js`).  The JavaScript source is shallowly embedded:
external AWS calls (S3, Rekognition, Transcribe, Textract, OpenSearch) are
oracles supplied through an environment record, and each `async` function
that can `throw` is modelled as a function into `Except String _`.
-/

namespace LearningLab

/-- JavaScript `String.prototype.startsWith`, modelled on the character list. -/
def strStartsWith (s p : String) : Bool := p.data.isPrefixOf s.data

/-- JavaScript `String.prototype.endsWith`, modelled on the character list. -/
def strEndsWith (s p : String) : Bool := p.data.isSuffixOf s.data

/-- JavaScript `String.prototype.toLowerCase` (ASCII-faithful, which covers
every key the pipeline produces). -/
def lowerStr (s : String) : String := ⟨s.data.map Char.toLower⟩

/-- A Mongo document record, per the `DocumentSchema` of `models/documentModel.js`
together with the fields the queue worker writes (`textS3Key`, `embedding`).
Fields the worker may leave absent are `Option`s (`null`/`undefined` in JS). -/
structure Document where
  id : String
  filename : String
  fileType : String
  s3Key : String
  tags : List String
  status : String
  extractedText : Option String
  summary : Option String
  textS3Key : Option String
  embedding : Option (List ℚ)
deriving DecidableEq, Repr

/-- One response of Rekognition `GetContentModeration` (video moderation poll). -/
structure ModPoll where
  jobStatus : String
  moderationLabels : List String
deriving DecidableEq, Repr

/-- Environment of one worker job: the outcomes of every external call the job
may make.  A `.error` means the corresponding `await` throws. -/
structure WorkerEnv where
  /-- `downloadFileFromS3(docRecord.s3Key)`: the original file's bytes. -/
  downloadResult : Except String (List Nat)
  /-- Rekognition `DetectModerationLabelsCommand` (image moderation). -/
  detectModerationLabels : Except String (List String)
  /-- Rekognition `StartContentModerationCommand` (video moderation start). -/
  startContentModeration : Except String Unit
  /-- Rekognition `GetContentModerationCommand`, per poll attempt. -/
  getContentModeration : Nat → Except String ModPoll
  /-- Outcome of the whole `TextExtraction` call (its strategies are external). -/
  textExtraction : Except String String
  /-- `uploadFileToS3(transcriptKey, ...)` for the derived text artifact. -/
  uploadFile : Except String Unit
  /-- `deleteFileFromS3(docRecord.s3Key)` in the moderation-flagged branch. -/
  deleteFile : Except String Unit

/-- The `for (let i = 0; i < 12; i++)` poll loop of `checkContentModeration`
for videos: each iteration fetches the job status; on `SUCCEEDED` it captures
the labels and breaks; any other status (including `FAILED`) just keeps
polling; when the attempts are exhausted the labels stay `[]`. -/
def videoModLoop (poll : Nat → Except String ModPoll) (i : Nat) :
    Nat → Except String (List String)
  | 0 => .ok []
  | fuel + 1 =>
    match poll i with
    | .error e => .error e
    | .ok r =>
      if r.jobStatus = "SUCCEEDED" then .ok r.moderationLabels
      else videoModLoop poll (i + 1) fuel

/-- `checkContentModeration(fileType, fileBuffer, s3Bucket, s3Key)` from
`services/docProcessingQueue.js` (part_005): image types get a synchronous
`DetectModerationLabels` call (MinConfidence 80), video types start an
asynchronous moderation job and poll it up to 12 times; anything else is
never flagged.  The result is `true` iff at least one label was returned. -/
def checkContentModeration (fileType : String) (env : WorkerEnv) :
    Except String Bool :=
  if strStartsWith fileType "image/" then
    match env.detectModerationLabels with
    | .error e => .error e
    | .ok labels => .ok (decide (0 < labels.length))
  else if strStartsWith fileType "video/" then
    match env.startContentModeration with
    | .error e => .error e
    | .ok _ =>
      match videoModLoop env.getContentModeration 0 12 with
      | .error e => .error e
      | .ok labels => .ok (decide (0 < labels.length))
  else .ok false

/-- The worker's moderation gate: `checkContentModeration` is invoked only when
`docRecord.fileType` starts with `image/` or `video/`. -/
def moderationGate (env : WorkerEnv) (d : Document) : Except String Bool :=
  if strStartsWith d.fileType "image/" || strStartsWith d.fileType "video/" then
    checkContentModeration d.fileType env
  else .ok false

/-- JavaScript `key.split('/')`, on character lists. -/
def splitChar (sep : Char) : List Char → List (List Char)
  | [] => [[]]
  | c :: cs =>
    if c = sep then [] :: splitChar sep cs
    else
      match splitChar sep cs with
      | [] => [[c]]
      | h :: t => (c :: h) :: t

/-- A character that may appear in the extension matched by the JS regex
`\.[^/.]+$`: anything except `.` and `/`. -/
def extCharOk (c : Char) : Bool := c != '.' && c != '/'

/-- JavaScript `filenamePart.replace(/\.[^/.]+$/, "")`: strip a final
extension — a trailing `.xyz` whose `xyz` is non-empty and free of `.`
and `/` — and leave the string unchanged when no such suffix exists. -/
def stripExtChars (l : List Char) : List Char :=
  match l.reverse.drop (l.reverse.takeWhile extCharOk).length,
        (l.reverse.takeWhile extCharOk).isEmpty with
  | '.' :: rs, false => rs.reverse
  | _, _ => l

/-- The derived-text key computation of the worker in part_005
(`initQueueWorker`, lines 409–417): second `/`-segment of the original key,
extension stripped, prefixed by `text/`, suffixed by `_transcript.txt` for
audio/video content types and `_document.txt` otherwise.  (JS indexes
`split('/')[1]`; a key without `/` would make the source throw, and the
upload path always produces `docs/...` keys, so the missing case is `""`.) -/
def derivedTextKey (fileType s3Key : String) : String :=
  let filenamePart : String := ⟨((splitChar '/' s3Key.data).drop 1).headD []⟩
  let baseName : String := ⟨stripExtChars filenamePart.data⟩
  let transcriptSuffix : String :=
    if strStartsWith fileType "audio/" || strStartsWith fileType "video/" then
      "_transcript.txt"
    else "_document.txt"
  "text/" ++ baseName ++ transcriptSuffix

/-- The whitespace class of the JS regex `\s` (restricted to the ASCII
whitespace the pipeline's texts contain). -/
def isWsChar (c : Char) : Bool := c = ' ' || c = '\t' || c = '\n' || c = '\r'

/-- `text.replace(/\s+/g, ' ')`: each run of whitespace becomes one space. -/
def collapseWs : List Char → List Char
  | [] => []
  | c :: cs =>
    if isWsChar c then ' ' :: collapseWs (cs.dropWhile isWsChar)
    else c :: collapseWs cs
termination_by l => l.length
decreasing_by
  · exact Nat.lt_succ_of_le (List.dropWhile_suffix _).sublist.length_le
  · exact Nat.lt_succ_self _

/-- JavaScript `String.prototype.trim` (over the same whitespace class). -/
def trimWs (l : List Char) : List Char :=
  ((l.dropWhile isWsChar).reverse.dropWhile isWsChar).reverse

/-- `extractedText.replace(/\s+/g, ' ').trim()` from the worker. -/
def cleanText (s : String) : String := ⟨trimWs (collapseWs s.data)⟩

/-- Sum of `charCodeAt` over the string, as in
`text.split('').reduce((acc, char) => acc + char.charCodeAt(0), 0)`. -/
def charCodeSum (s : String) : ℚ :=
  s.data.foldl (fun acc c => acc + (c.toNat : ℚ)) 0

/-- The worker's `generateEmbedding` (part_005, lines 424–428): mean character
code `avg = sum / (text.length || 1)` and the vector `[avg, avg/2, avg/3]`.
JS numbers are idealised as rationals; every arithmetic step of the source
formula is exact division, so the formula's shape is preserved verbatim. -/
def generateEmbedding (text : String) : List ℚ :=
  let sum := charCodeSum text
  let avg := sum / (if text.data.length = 0 then 1 else (text.data.length : ℚ))
  [avg, avg / 2, avg / 3]

/-- The retrieval path's `generateEmbedding` (`controllers/generateController.js`,
part_010, lines 123–127), translated independently of the worker's copy. -/
def generateEmbeddingRetrieval (text : String) : List ℚ :=
  let sum := text.data.foldl (fun acc c => acc + (c.toNat : ℚ)) 0
  let avg := sum / (if text.data.length = 0 then 1 else (text.data.length : ℚ))
  [avg, avg / 2, avg / 3]

/-- Result of one worker job: whether the Bull handler resolved or rethrew,
the document record as persisted in the database after the job (saves are the
only writes; an unreached `save` leaves the record at its pre-job state), and
the S3 side effects the job performed. -/
structure JobOutcome where
  result : Except String Unit
  db : Document
  deleted : List String
  uploaded : List (String × String)
deriving Repr

/-- The Bull worker callback of `initQueueWorker` in part_005 (lines 363–447),
for a found document record `d0`:
1. download the original from S3 (throw ⇒ job fails, nothing saved);
2. for `image/`/`video/` types run `checkContentModeration`; a flagged result
   deletes the original, sets the status string
   `'deleted due to content moderation'`, saves, and returns successfully;
3. otherwise run `TextExtraction`; a non-empty result is uploaded under the
   derived text key, and `textS3Key`/`embedding` are set on the record;
4. set `status = 'processed'` and save.
Any thrown error is logged and rethrown by the surrounding `catch`, which Bull
reports as a failed job. -/
def processJob (env : WorkerEnv) (d0 : Document) : JobOutcome :=
  match env.downloadResult with
  | .error e => ⟨.error e, d0, [], []⟩
  | .ok _fileBuffer =>
    match moderationGate env d0 with
    | .error e => ⟨.error e, d0, [], []⟩
    | .ok true =>
      match env.deleteFile with
      | .error e => ⟨.error e, d0, [], []⟩
      | .ok _ =>
        ⟨.ok (), { d0 with status := "deleted due to content moderation" },
          [d0.s3Key], []⟩
    | .ok false =>
      match env.textExtraction with
      | .error e => ⟨.error e, d0, [], []⟩
      | .ok extractedText =>
        if extractedText = "" then
          ⟨.ok (), { d0 with status := "processed" }, [], []⟩
        else
          match env.uploadFile with
          | .error e => ⟨.error e, d0, [], []⟩
          | .ok _ =>
            let transcriptKey := derivedTextKey d0.fileType d0.s3Key
            let embedding := generateEmbedding (cleanText extractedText)
            ⟨.ok (),
              { d0 with
                  textS3Key := some transcriptKey
                  embedding := some embedding
                  status := "processed" },
              [], [(transcriptKey, extractedText)]⟩

/-- The strategies `TextExtraction` can dispatch to.  `transcribe` records the
file-type string handed to `extractTextWithAWS` (the octet-stream branches pass
the literals `'audio/'` and `'video/'`). -/
inductive ExtractionStrategy where
  | textract
  | transcribe (effectiveType : String)
  | pdfParse
  | csvText
  | xlsxSheets
  | mammothDoc
  | utf8Text
deriving DecidableEq, Repr

/-- The dispatch decision of `TextExtraction(fileBuffer, fileType, s3Bucket,
s3Key)` in part_005 (lines 239–308), as a pure function of `fileType` and
`s3Key` (the buffer never influences the choice).  The source's two nested
octet-stream `if`s fall through to the remaining chain when neither extension
matches, which the flattened `else if` chain reproduces exactly. -/
def extractionRoute (fileType s3Key : String) : ExtractionStrategy :=
  let lowerKey := lowerStr s3Key
  if strStartsWith fileType "image/" then .textract
  else if fileType = "application/octet-stream"
      && (strEndsWith lowerKey ".mp3" || strEndsWith lowerKey ".wav") then
    .transcribe "audio/"
  else if fileType = "application/octet-stream"
      && (strEndsWith lowerKey ".mp4" || strEndsWith lowerKey ".mov") then
    .transcribe "video/"
  else if strStartsWith fileType "audio/" || strStartsWith fileType "video/" then
    .transcribe fileType
  else if fileType = "application/pdf" then .pdfParse
  else if fileType = "text/csv" then .csvText
  else if fileType = "application/vnd.ms-excel"
      || fileType = "application/vnd.openxmlformats-officedocument.spreadsheetml.sheet" then
    .xlsxSheets
  else if fileType = "application/msword"
      || fileType = "application/vnd.openxmlformats-officedocument.wordprocessingml.document" then
    .mammothDoc
  else .utf8Text

/-- The `while (!jobCompleted)` transcription poll loop of `extractTextWithAWS`
(part_005 / `services/docProcessingQueue.js`, lines 80–98).  `poll i` is the
`TranscriptionJobStatus` of the i-th `GetTranscriptionJobCommand` (or its
throw); `transcriptResult` is the outcome of the transcript-fetch block run on
`COMPLETED`.  The source loop has no attempt bound, so it is embedded with
fuel: `none` means the loop is still running after `fuel` iterations. -/
def transcribeLoop (poll : Nat → Except String String)
    (transcriptResult : Except String String) (i : Nat) :
    Nat → Option (Except String String)
  | 0 => none
  | fuel + 1 =>
    match poll i with
    | .error e => some (.error e)
    | .ok status =>
      if status = "COMPLETED" then some transcriptResult
      else if status = "FAILED" then some (.error "Transcription job failed")
      else transcribeLoop poll transcriptResult (i + 1) fuel

/-- Vector-index operations the retrieval path can perform against OpenSearch. -/
inductive IndexOp where
  | deleteIndex
  | createIndex
  | indexDoc (id : String)
  | refresh
  | search
deriving DecidableEq, Repr

/-- Environment of one `generateFromPrompt` request. -/
structure RetrievalEnv where
  /-- `process.env.ACCESS_TOKEN_SECRET`. -/
  accessTokenSecret : String
  /-- Whether `client.indices.exists({ index: 'documents' })` reports true. -/
  indexExists : Bool
  /-- All document records in MongoDB. -/
  documents : List Document
  /-- The decoded S3 text for a document (`textS3Key` if set, else `s3Key`). -/
  fetchText : Document → String
  /-- The `_source.text` payloads of the top-5 similarity search hits. -/
  searchHits : List String

/-- HTTP outcome of `generateFromPrompt`. -/
inductive RetrievalResponse where
  | unauthorized
  | answer (text : String)
deriving DecidableEq, Repr

/-- Result of one retrieval request: the response, every vector-index
operation performed, and the database contents afterwards (the handler never
calls `save`, so the records pass through unchanged). -/
structure RetrievalOutcome where
  response : RetrievalResponse
  indexOps : List IndexOp
  db : List Document
deriving Repr

/-- `ensureDocumentsIndex(client)` (part_010, lines 27–52): delete the
`documents` index when it exists, then (re)create it. -/
def ensureDocumentsIndex (indexExists : Bool) : List IndexOp :=
  (if indexExists then [IndexOp.deleteIndex] else []) ++ [IndexOp.createIndex]

/-- `generateFromPrompt(req, res)` (part_010, lines 67–191): the shared-secret
check runs first and a mismatch returns 401 `Unauthorized` before any
OpenSearch client, index or document access.  On success: ensure the index,
load the `processed` documents, clean each one's text, embed and index each,
refresh, embed the prompt, search top-5 by cosine similarity, and answer with
the simulated LLM string built from prompt and retrieved context. -/
def generateFromPrompt (env : RetrievalEnv) (providedSecret prompt : String) :
    RetrievalOutcome :=
  if providedSecret ≠ env.accessTokenSecret then
    ⟨.unauthorized, [], env.documents⟩
  else
    let docs := env.documents.filter fun d => d.status = "processed"
    let opsIndex := ensureDocumentsIndex env.indexExists
    let opsDocs := docs.map fun d => IndexOp.indexDoc d.id
    let context := String.intercalate "\n" env.searchHits
    let finalPrompt :=
      "Query: " ++ prompt ++ "\nContext: " ++ context ++ "\nAnswer:"
    ⟨.answer ("Simulated answer based on prompt: " ++ finalPrompt),
      opsIndex ++ opsDocs ++ [IndexOp.refresh, IndexOp.search],
      env.documents⟩

/-! ### Concrete environments and records used to instantiate the theorems -/

/-- A worker environment in which every external call succeeds benignly. -/
def envBenign : WorkerEnv where
  downloadResult := .ok [104, 105]
  detectModerationLabels := .ok []
  startContentModeration := .ok ()
  getContentModeration := fun _ => .ok ⟨"SUCCEEDED", []⟩
  textExtraction := .ok "Hello World"
  uploadFile := .ok ()
  deleteFile := .ok ()

/-- Environment whose image moderation call reports one unsafe label. -/
def envImageFlagged : WorkerEnv :=
  { envBenign with detectModerationLabels := .ok ["Explicit Nudity"] }

/-- Environment whose S3 download throws. -/
def envDownloadBoom : WorkerEnv :=
  { envBenign with downloadResult := .error "NoSuchKey" }

/-- Environment whose video moderation job never reports `SUCCEEDED`. -/
def envVideoStuck : WorkerEnv :=
  { envBenign with getContentModeration := fun _ => .ok ⟨"IN_PROGRESS", []⟩ }

/-- Environment whose video moderation job reports `FAILED` on every poll. -/
def envVideoFailed : WorkerEnv :=
  { envBenign with getContentModeration := fun _ => .ok ⟨"FAILED", []⟩ }

/-- Environment whose extraction finds no text. -/
def envNoText : WorkerEnv :=
  { envBenign with textExtraction := .ok "" }

/-- A freshly uploaded image document. -/
def docImage : Document where
  id := "d1"
  filename := "photo.png"
  fileType := "image/png"
  s3Key := "docs/u1_photo.png"
  tags := []
  status := "uploaded"
  extractedText := none
  summary := none
  textS3Key := none
  embedding := none

/-- A freshly uploaded video document. -/
def docVideo : Document :=
  { docImage with
      id := "d2", filename := "clip.mp4", fileType := "video/mp4",
      s3Key := "docs/u2_clip.mp4" }

/-- A freshly uploaded PDF document. -/
def docPdf : Document :=
  { docImage with
      id := "d3", filename := "report.pdf", fileType := "application/pdf",
      s3Key := "docs/u3_report.pdf" }

/-- An already-processed document record. -/
def docProcessed : Document :=
  { docPdf with id := "d4", status := "processed" }

/-- A retrieval environment with one processed document and a configured
shared secret. -/
def envRetrieval : RetrievalEnv where
  accessTokenSecret := "s3cret"
  indexExists := true
  documents := [docProcessed]
  fetchText := fun _ => "Hello World"
  searchHits := ["Hello World"]

/-! ### Helper lemmas -/

/-- `takeWhile` stops exactly at the first failing element. -/
theorem takeWhile_append_sat {α : Type} (p : α → Bool) (l1 : List α) (x : α)
    (l2 : List α) (h1 : ∀ a ∈ l1, p a = true) (hx : p x = false) :
    (l1 ++ x :: l2).takeWhile p = l1 := by
  induction l1 with
  | nil => simp [List.takeWhile, hx]
  | cons a as ih =>
    have ha : p a = true := h1 a (List.mem_cons_self a as)
    simp only [List.cons_append, List.takeWhile_cons, ha, if_true]
    rw [ih fun b hb => h1 b (List.mem_cons_of_mem a hb)]

/-- A list containing no separator is split into the single segment itself. -/
theorem splitChar_no_sep (sep : Char) (l : List Char)
    (h : ∀ c ∈ l, c ≠ sep) : splitChar sep l = [l] := by
  induction l with
  | nil => rfl
  | cons c cs ih =>
    have hc : c ≠ sep := h c (List.mem_cons_self c cs)
    have hcs := ih fun b hb => h b (List.mem_cons_of_mem c hb)
    simp [splitChar, hc, hcs]

/-- Splitting a `docs/`-prefixed key peels off the `docs` segment. -/
theorem splitChar_docs (rest : List Char) :
    splitChar '/' (('d' :: 'o' :: 'c' :: 's' :: '/' :: rest : List Char))
      = ['d', 'o', 'c', 's'] :: splitChar '/' rest := by
  simp [splitChar]

/-- Stripping the final extension of `base.ext` gives back `base` whenever the
extension is non-empty and free of `.` and `/` (the regex `\.[^/.]+$`). -/
theorem stripExtChars_append (b e : List Char) (he : e ≠ [])
    (hok : ∀ c ∈ e, c ≠ '.' ∧ c ≠ '/') :
    stripExtChars (b ++ '.' :: e) = b := by
  have hrev : (b ++ '.' :: e).reverse = e.reverse ++ '.' :: b.reverse := by
    simp
  have hsat : ∀ c ∈ e.reverse, extCharOk c = true := by
    intro c hc
    obtain ⟨h1, h2⟩ := hok c (List.mem_reverse.mp hc)
    simp [extCharOk, h1, h2]
  have htake : ((b ++ '.' :: e).reverse.takeWhile extCharOk) = e.reverse := by
    rw [hrev]
    exact takeWhile_append_sat _ _ _ _ hsat (by decide)
  have hdrop : (e.reverse ++ '.' :: b.reverse).drop e.reverse.length
      = '.' :: b.reverse := List.drop_left _ _
  have hemp : e.reverse.isEmpty = false := by
    simp [List.isEmpty_iff, he]
  unfold stripExtChars
  rw [htake, hrev, hdrop, hemp]
  simp

/-- The bounded video-moderation loop returns empty labels when no poll inside
its window reports `SUCCEEDED` (and none throws). -/
theorem videoModLoop_exhaust (poll : Nat → Except String ModPoll)
    (i fuel : Nat)
    (h : ∀ j, i ≤ j → j < i + fuel →
      ∃ r, poll j = .ok r ∧ r.jobStatus ≠ "SUCCEEDED") :
    videoModLoop poll i fuel = .ok [] := by
  induction fuel generalizing i with
  | zero => rfl
  | succ n ih =>
    obtain ⟨r, hr, hs⟩ := h i (le_refl i) (by omega)
    have hrec := ih (i + 1) fun j h1 h2 => h j (by omega) (by omega)
    simp [videoModLoop, hr, hs, hrec]

/-- The bounded video-moderation loop only ever reads polls inside its window. -/
theorem videoModLoop_congr (p q : Nat → Except String ModPoll) (i fuel : Nat)
    (h : ∀ j, i ≤ j → j < i + fuel → p j = q j) :
    videoModLoop p i fuel = videoModLoop q i fuel := by
  induction fuel generalizing i with
  | zero => rfl
  | succ n ih =>
    have hi : p i = q i := h i (le_refl i) (by omega)
    have hrec := ih (i + 1) fun j h1 h2 => h j (by omega) (by omega)
    simp only [videoModLoop, hi]
    cases q i with
    | error e => rfl
    | ok r =>
      by_cases hs : r.jobStatus = "SUCCEEDED" <;> simp [hs, hrec]

/-- The transcription loop never terminates while the job status stays
non-terminal, whatever the iteration budget. -/
theorem transcribeLoop_stuck (poll : Nat → Except String String)
    (tr : Except String String)
    (h : ∀ i, poll i = .ok "IN_PROGRESS") (i fuel : Nat) :
    transcribeLoop poll tr i fuel = none := by
  induction fuel generalizing i with
  | zero => rfl
  | succ n ih => simp [transcribeLoop, h i, ih]

/-! ### Claims -/

/-- C7: the worker's embedding function and the retrieval path's embedding
function agree on every input; both emit `[m, m/2, m/3]` where `m` is the sum
of the character codes divided by the length (by 1 for the empty string);
`embed("") = [0,0,0]`; and the function is deterministic. -/
theorem embedding_functions_agree :
    (∀ t : String, generateEmbedding t = generateEmbeddingRetrieval t)
    ∧ generateEmbedding "" = [0, 0, 0]
    ∧ (∀ t : String,
        generateEmbedding t
          = [charCodeSum t
                / (if t.data.length = 0 then 1 else (t.data.length : ℚ)),
             charCodeSum t
                / (if t.data.length = 0 then 1 else (t.data.length : ℚ)) / 2,
             charCodeSum t
                / (if t.data.length = 0 then 1 else (t.data.length : ℚ)) / 3])
    ∧ (∀ t : String, generateEmbedding t = generateEmbedding t) := by
  refine ⟨fun t => rfl, ?_, fun t => rfl, fun t => rfl⟩
  simp [generateEmbedding, charCodeSum]

/-- C9: a retrieval call whose provided shared secret differs from the
configured one answers `Unauthorized`, performs no vector-index operation
(no delete, create, upsert, refresh or search), and leaves every document
record unchanged. -/
theorem wrong_secret_is_rejected_without_side_effects
    (env : RetrievalEnv) (provided prompt : String)
    (h : provided ≠ env.accessTokenSecret) :
    (generateFromPrompt env provided prompt).response = .unauthorized
    ∧ (generateFromPrompt env provided prompt).indexOps = []
    ∧ (generateFromPrompt env provided prompt).db = env.documents := by
  simp [generateFromPrompt, h]

/-- C9 witness: a concrete wrong-secret call is rejected with no effects. -/
theorem wrong_secret_is_rejected_without_side_effects_witness :
    (generateFromPrompt envRetrieval "wrong" "hi").response = .unauthorized
    ∧ (generateFromPrompt envRetrieval "wrong" "hi").indexOps = []
    ∧ (generateFromPrompt envRetrieval "wrong" "hi").db
        = envRetrieval.documents :=
  wrong_secret_is_rejected_without_side_effects envRetrieval "wrong" "hi"
    (by decide)

/-- C1: a moderation-flagged image or video job deletes the original blob,
sets the terminal moderation-rejection status (the source's literal for the
spec's `rejected_moderation` is the string `'deleted due to content
moderation'`), resolves successfully, uploads nothing, and leaves
`textS3Key` (the spec's `derivedTextKey`), `summary` and `embedding` unset
when they started unset. -/
theorem moderation_flagged_is_terminal (env : WorkerEnv) (d0 : Document)
    (hmedia : strStartsWith d0.fileType "image/" = true
      ∨ strStartsWith d0.fileType "video/" = true)
    (hdl : ∃ b, env.downloadResult = .ok b)
    (hflag : checkContentModeration d0.fileType env = .ok true)
    (hdel : env.deleteFile = .ok ())
    (hkey : d0.textS3Key = none) (hsum : d0.summary = none)
    (hemb : d0.embedding = none) :
    (processJob env d0).result = .ok ()
    ∧ (processJob env d0).db.status = "deleted due to content moderation"
    ∧ (processJob env d0).deleted = [d0.s3Key]
    ∧ (processJob env d0).uploaded = []
    ∧ (processJob env d0).db.textS3Key = none
    ∧ (processJob env d0).db.summary = none
    ∧ (processJob env d0).db.embedding = none := by
  obtain ⟨b, hb⟩ := hdl
  have hor : (strStartsWith d0.fileType "image/"
      || strStartsWith d0.fileType "video/") = true := by
    rcases hmedia with h | h <;> simp [h]
  simp [processJob, moderationGate, hb, hor, hflag, hdel, hkey, hsum, hemb]

/-- C1 witness: an image whose moderation call returns one label is deleted
and terminally rejected. -/
theorem moderation_flagged_is_terminal_witness :
    (processJob envImageFlagged docImage).result = .ok ()
    ∧ (processJob envImageFlagged docImage).db.status
        = "deleted due to content moderation"
    ∧ (processJob envImageFlagged docImage).deleted = [docImage.s3Key]
    ∧ (processJob envImageFlagged docImage).uploaded = []
    ∧ (processJob envImageFlagged docImage).db.textS3Key = none
    ∧ (processJob envImageFlagged docImage).db.summary = none
    ∧ (processJob envImageFlagged docImage).db.embedding = none :=
  moderation_flagged_is_terminal envImageFlagged docImage
    (Or.inl (by decide)) ⟨[104, 105], rfl⟩ rfl rfl rfl rfl rfl

/-- C2: whenever a processing job fails (its handler rethrows an error `e` —
which covers a throwing download, moderation-check execution, extraction, or
derived-text upload), the error is surfaced as the job's result and the
document record in the database is exactly its pre-job state, with no S3
deletion or upload performed. -/
theorem failed_job_leaves_record_unmodified (env : WorkerEnv) (d0 : Document)
    (e : String) (hfail : (processJob env d0).result = .error e) :
    (processJob env d0).db = d0
    ∧ (processJob env d0).deleted = []
    ∧ (processJob env d0).uploaded = [] := by
  cases h1 : env.downloadResult with
  | error e1 => simp [processJob, h1]
  | ok b =>
    cases h2 : moderationGate env d0 with
    | error e2 => simp [processJob, h1, h2]
    | ok flagged =>
      cases flagged with
      | true =>
        cases h3 : env.deleteFile with
        | error e3 => simp [processJob, h1, h2, h3]
        | ok u => simp [processJob, h1, h2, h3] at hfail
      | false =>
        cases h4 : env.textExtraction with
        | error e4 => simp [processJob, h1, h2, h4]
        | ok t =>
          by_cases ht : t = ""
          · simp [processJob, h1, h2, h4, ht] at hfail
          · cases h5 : env.uploadFile with
            | error e5 => simp [processJob, h1, h2, h4, ht, h5]
            | ok u => simp [processJob, h1, h2, h4, ht, h5] at hfail

/-- C2 witness: a job whose S3 download throws fails and changes nothing. -/
theorem failed_job_leaves_record_unmodified_witness :
    (processJob envDownloadBoom docPdf).db = docPdf
    ∧ (processJob envDownloadBoom docPdf).deleted = []
    ∧ (processJob envDownloadBoom docPdf).uploaded = [] :=
  failed_job_leaves_record_unmodified envDownloadBoom docPdf "NoSuchKey" rfl

/-- C8: one worker execution can only keep the stored status or advance it to
`processed` or to the terminal moderation-rejection status; in particular no
code path ever writes the status back to `uploaded`, so a record that has
left `uploaded` never reverts to it. -/
theorem status_never_reverts (env : WorkerEnv) (d0 : Document) :
    ((processJob env d0).db.status = d0.status
      ∨ (processJob env d0).db.status = "processed"
      ∨ (processJob env d0).db.status = "deleted due to content moderation")
    ∧ (d0.status ≠ "uploaded" → (processJob env d0).db.status ≠ "uploaded") := by
  have hmain : (processJob env d0).db.status = d0.status
      ∨ (processJob env d0).db.status = "processed"
      ∨ (processJob env d0).db.status = "deleted due to content moderation" := by
    cases h1 : env.downloadResult with
    | error e1 => simp [processJob, h1]
    | ok b =>
      cases h2 : moderationGate env d0 with
      | error e2 => simp [processJob, h1, h2]
      | ok flagged =>
        cases flagged with
        | true =>
          cases h3 : env.deleteFile with
          | error e3 => simp [processJob, h1, h2, h3]
          | ok u => simp [processJob, h1, h2, h3]
        | false =>
          cases h4 : env.textExtraction with
          | error e4 => simp [processJob, h1, h2, h4]
          | ok t =>
            by_cases ht : t = ""
            · simp [processJob, h1, h2, h4, ht]
            · cases h5 : env.uploadFile with
              | error e5 => simp [processJob, h1, h2, h4, ht, h5]
              | ok u => simp [processJob, h1, h2, h4, ht, h5]
  refine ⟨hmain, fun hup => ?_⟩
  rcases hmain with h | h | h <;> rw [h]
  · exact hup
  · decide
  · decide

/-- C8 witness: running the worker on an already-processed record never puts
it back to `uploaded`. -/
theorem status_never_reverts_witness :
    (processJob envBenign docProcessed).db.status ≠ "uploaded" :=
  (status_never_reverts envBenign docProcessed).2 (by decide)

/-- C5: for a record entering the job without a derived text key, a completed
job leaves `textS3Key` set exactly when the moderation gate passed and the
extraction call succeeded with non-empty text; and an extraction that
succeeds with the empty string uploads nothing, leaves `textS3Key` unset,
and still completes the job successfully. -/
theorem derived_key_iff_nonempty_text (env : WorkerEnv) (d0 : Document)
    (hkey : d0.textS3Key = none) :
    ((processJob env d0).result = .ok () →
      ((processJob env d0).db.textS3Key ≠ none ↔
        moderationGate env d0 = .ok false
          ∧ ∃ t, env.textExtraction = .ok t ∧ t ≠ ""))
    ∧ (∀ b, env.downloadResult = .ok b →
        moderationGate env d0 = .ok false →
        env.textExtraction = .ok "" →
        (processJob env d0).result = .ok ()
          ∧ (processJob env d0).uploaded = []
          ∧ (processJob env d0).db.textS3Key = none) := by
  constructor
  · intro hok
    cases h1 : env.downloadResult with
    | error e1 => simp [processJob, h1] at hok
    | ok b =>
      cases h2 : moderationGate env d0 with
      | error e2 => simp [processJob, h1, h2] at hok
      | ok flagged =>
        cases flagged with
        | true =>
          cases h3 : env.deleteFile with
          | error e3 => simp [processJob, h1, h2, h3] at hok
          | ok u => simp [processJob, h1, h2, h3, hkey]
        | false =>
          cases h4 : env.textExtraction with
          | error e4 => simp [processJob, h1, h2, h4] at hok
          | ok t =>
            by_cases ht : t = ""
            · subst ht
              simp [processJob, h1, h2, h4, hkey]
            · cases h5 : env.uploadFile with
              | error e5 => simp [processJob, h1, h2, h4, ht, h5] at hok
              | ok u => simp [processJob, h1, h2, h4, ht, h5]
  · intro b hb hgate hempty
    simp [processJob, hb, hgate, hempty, hkey]

/-- C5 witness: extraction returning the empty string publishes nothing and
the job still completes with `textS3Key` unset. -/
theorem derived_key_iff_nonempty_text_witness :
    (processJob envNoText docPdf).result = .ok ()
    ∧ (processJob envNoText docPdf).uploaded = []
    ∧ (processJob envNoText docPdf).db.textS3Key = none :=
  (derived_key_iff_nonempty_text envNoText docPdf rfl).2 [104, 105] rfl rfl rfl

/-- C10: when no poll of a video moderation job reports `SUCCEEDED` within the
12 attempts, `checkContentModeration` returns `false` — no timeout error is
raised, the video counts as not flagged, and the worker goes on to extraction
and completes the job with `status = 'processed'`. -/
theorem video_moderation_timeout_means_not_flagged
    (env : WorkerEnv) (d0 : Document)
    (hvid : strStartsWith d0.fileType "video/" = true)
    (himg : strStartsWith d0.fileType "image/" = false)
    (hstart : env.startContentModeration = .ok ())
    (hpolls : ∀ i, i < 12 →
      ∃ r, env.getContentModeration i = .ok r ∧ r.jobStatus ≠ "SUCCEEDED")
    (hdl : ∃ b, env.downloadResult = .ok b)
    (hex : ∃ t, env.textExtraction = .ok t)
    (hup : env.uploadFile = .ok ()) :
    checkContentModeration d0.fileType env = .ok false
    ∧ (processJob env d0).result = .ok ()
    ∧ (processJob env d0).db.status = "processed" := by
  have hloop : videoModLoop env.getContentModeration 0 12 = .ok [] :=
    videoModLoop_exhaust _ 0 12 fun j h1 h2 => hpolls j (by omega)
  have hcheck : checkContentModeration d0.fileType env = .ok false := by
    simp [checkContentModeration, hvid, himg, hstart, hloop]
  obtain ⟨b, hb⟩ := hdl
  obtain ⟨t, htex⟩ := hex
  have hgate : moderationGate env d0 = .ok false := by
    simp [moderationGate, hvid, hcheck]
  refine ⟨hcheck, ?_⟩
  by_cases ht : t = ""
  · subst ht
    simp [processJob, hb, hgate, htex]
  · simp [processJob, hb, hgate, htex, ht, hup]

/-- C10 witness: a video whose moderation job stays `IN_PROGRESS` for all 12
polls is processed normally. -/
theorem video_moderation_timeout_means_not_flagged_witness :
    checkContentModeration docVideo.fileType envVideoStuck = .ok false
    ∧ (processJob envVideoStuck docVideo).result = .ok ()
    ∧ (processJob envVideoStuck docVideo).db.status = "processed" :=
  video_moderation_timeout_means_not_flagged envVideoStuck docVideo
    (by decide) (by decide) rfl
    (fun i _ => ⟨⟨"IN_PROGRESS", []⟩, rfl, by decide⟩)
    ⟨[104, 105], rfl⟩ ⟨"Hello World", rfl⟩ rfl

/-- C4: for any original key `docs/<basename>.<ext>` (basename without `/`,
extension non-empty and without `.` or `/`), the derived text key is
deterministically `text/` + basename-without-extension + `_transcript.txt`
for audio/video content types and the generic `_document.txt` suffix
otherwise; in particular a non-audio/video `docs/<uuid>_report.pdf`-style key
maps to a `text/...txt`-shaped key with the prefix swapped and the extension
replaced. -/
theorem derived_key_deterministic (base ext ct : String)
    (hext : ext.data ≠ [])
    (hok : ∀ c ∈ ext.data, c ≠ '.' ∧ c ≠ '/')
    (hbase : ∀ c ∈ base.data, c ≠ '/') :
    derivedTextKey ct ("docs/" ++ base ++ "." ++ ext)
      = "text/" ++ base
          ++ (if strStartsWith ct "audio/" || strStartsWith ct "video/" then
                "_transcript.txt"
              else "_document.txt")
    ∧ (strStartsWith ct "audio/" = false → strStartsWith ct "video/" = false →
        derivedTextKey ct ("docs/" ++ base ++ "." ++ ext)
            = "text/" ++ base ++ "_document.txt"
          ∧ strStartsWith (derivedTextKey ct ("docs/" ++ base ++ "." ++ ext))
              ("text/" ++ base) = true
          ∧ strEndsWith (derivedTextKey ct ("docs/" ++ base ++ "." ++ ext))
              ".txt" = true) := by
  have hdata : ("docs/" ++ base ++ "." ++ ext).data
      = 'd' :: 'o' :: 'c' :: 's' :: '/' :: (base.data ++ '.' :: ext.data) := by
    simp [String.data_append]
  have hnosep : ∀ c ∈ base.data ++ '.' :: ext.data, c ≠ '/' := by
    intro c hc
    rcases List.mem_append.mp hc with h | h
    · exact hbase c h
    · rcases List.mem_cons.mp h with h | h
      · subst h; decide
      · exact (hok c h).2
  have hsplit : splitChar '/' ("docs/" ++ base ++ "." ++ ext).data
      = ['d', 'o', 'c', 's'] :: [base.data ++ '.' :: ext.data] := by
    rw [hdata, splitChar_docs, splitChar_no_sep '/' _ hnosep]
  have hstrip : stripExtChars (base.data ++ '.' :: ext.data) = base.data :=
    stripExtChars_append base.data ext.data hext hok
  have hmain : derivedTextKey ct ("docs/" ++ base ++ "." ++ ext)
      = "text/" ++ base
          ++ (if strStartsWith ct "audio/" || strStartsWith ct "video/" then
                "_transcript.txt"
              else "_document.txt") := by
    unfold derivedTextKey
    rw [hsplit]
    simp only [List.drop, List.headD]
    rw [hstrip]
  refine ⟨hmain, fun ha hv => ?_⟩
  have hsuffix : (if strStartsWith ct "audio/" || strStartsWith ct "video/"
      then "_transcript.txt" else "_document.txt") = "_document.txt" := by
    simp [ha, hv]
  have hdoc : derivedTextKey ct ("docs/" ++ base ++ "." ++ ext)
      = "text/" ++ base ++ "_document.txt" := by
    rw [hmain, hsuffix, String.append_assoc]
  refine ⟨hdoc, ?_, ?_⟩
  · rw [hdoc]
    unfold strStartsWith
    rw [String.data_append, List.isPrefixOf_iff_prefix]
    exact List.prefix_append _ _
  · rw [hdoc]
    have hcat : ("_document.txt" : String) = "_document" ++ ".txt" := by decide
    rw [hcat, ← String.append_assoc]
    unfold strEndsWith
    rw [String.data_append, List.isSuffixOf_iff_suffix]
    exact List.suffix_append _ _

/-- C4 witness: `docs/u1_report.pdf` with a non-audio/video content type maps
to `text/u1_report_document.txt`, which carries the `text/` prefix and a
`.txt` extension. -/
theorem derived_key_deterministic_witness :
    derivedTextKey "application/pdf" ("docs/" ++ "u1_report" ++ "." ++ "pdf")
        = "text/" ++ "u1_report" ++ "_document.txt"
    ∧ strStartsWith
        (derivedTextKey "application/pdf" ("docs/" ++ "u1_report" ++ "." ++ "pdf"))
        ("text/" ++ "u1_report") = true
    ∧ strEndsWith
        (derivedTextKey "application/pdf" ("docs/" ++ "u1_report" ++ "." ++ "pdf"))
        ".txt" = true :=
  (derived_key_deterministic "u1_report" "pdf" "application/pdf"
      (by decide) (by decide) (by decide)).2 (by decide) (by decide)

/-- C3: the extraction dispatcher evaluates its rules in the claimed
precedence order, for every content type and storage key: `image/` types go
to OCR first; otherwise exactly `application/octet-stream` with a
case-insensitive `.mp3`/`.wav` key goes to transcription as audio and with
`.mp4`/`.mov` as video; otherwise `audio/`/`video/` types go to
transcription; otherwise the exact PDF, CSV, spreadsheet and word-processor
types go to their local parsers; and everything else is decoded as UTF-8
text (including octet-streams without a recognised media extension). -/
theorem extraction_dispatch_precedence (ct key : String) :
    (strStartsWith ct "image/" = true →
      extractionRoute ct key = .textract)
    ∧ (strStartsWith ct "image/" = false →
        ct = "application/octet-stream" →
        (strEndsWith (lowerStr key) ".mp3" = true
          ∨ strEndsWith (lowerStr key) ".wav" = true) →
        extractionRoute ct key = .transcribe "audio/")
    ∧ (strStartsWith ct "image/" = false →
        ct = "application/octet-stream" →
        strEndsWith (lowerStr key) ".mp3" = false →
        strEndsWith (lowerStr key) ".wav" = false →
        (strEndsWith (lowerStr key) ".mp4" = true
          ∨ strEndsWith (lowerStr key) ".mov" = true) →
        extractionRoute ct key = .transcribe "video/")
    ∧ (strStartsWith ct "image/" = false →
        (strStartsWith ct "audio/" = true ∨ strStartsWith ct "video/" = true) →
        extractionRoute ct key = .transcribe ct)
    ∧ (ct = "application/pdf" → extractionRoute ct key = .pdfParse)
    ∧ (ct = "text/csv" → extractionRoute ct key = .csvText)
    ∧ ((ct = "application/vnd.ms-excel"
        ∨ ct = "application/vnd.openxmlformats-officedocument.spreadsheetml.sheet") →
        extractionRoute ct key = .xlsxSheets)
    ∧ ((ct = "application/msword"
        ∨ ct = "application/vnd.openxmlformats-officedocument.wordprocessingml.document") →
        extractionRoute ct key = .mammothDoc)
    ∧ (strStartsWith ct "image/" = false →
        ct = "application/octet-stream" →
        strEndsWith (lowerStr key) ".mp3" = false →
        strEndsWith (lowerStr key) ".wav" = false →
        strEndsWith (lowerStr key) ".mp4" = false →
        strEndsWith (lowerStr key) ".mov" = false →
        extractionRoute ct key = .utf8Text)
    ∧ (strStartsWith ct "image/" = false →
        ct ≠ "application/octet-stream" →
        strStartsWith ct "audio/" = false →
        strStartsWith ct "video/" = false →
        ct ≠ "application/pdf" →
        ct ≠ "text/csv" →
        ct ≠ "application/vnd.ms-excel" →
        ct ≠ "application/vnd.openxmlformats-officedocument.spreadsheetml.sheet" →
        ct ≠ "application/msword" →
        ct ≠ "application/vnd.openxmlformats-officedocument.wordprocessingml.document" →
        extractionRoute ct key = .utf8Text) := by
  refine ⟨?_, ?_, ?_, ?_, ?_, ?_, ?_, ?_, ?_, ?_⟩
  · intro h1
    simp [extractionRoute, h1]
  · intro h1 h2 h3
    subst h2
    rcases h3 with h3 | h3 <;> simp [extractionRoute, h1, h3]
  · intro h1 h2 h3 h4 h5
    subst h2
    rcases h5 with h5 | h5 <;> simp [extractionRoute, h1, h3, h4, h5]
  · intro h1 h2
    have hoct : ct ≠ "application/octet-stream" := by
      intro hct
      subst hct
      rcases h2 with h2 | h2 <;> exact absurd h2 (by decide)
    rcases h2 with h2 | h2 <;>
      simp [extractionRoute, h1, hoct, h2]
  · intro h1
    subst h1
    simp [extractionRoute]
    decide
  · intro h1
    subst h1
    simp [extractionRoute]
    decide
  · intro h1
    rcases h1 with h1 | h1 <;> (subst h1; simp [extractionRoute]; decide)
  · intro h1
    rcases h1 with h1 | h1 <;> (subst h1; simp [extractionRoute]; decide)
  · intro h1 h2 h3 h4 h5 h6
    subst h2
    simp [extractionRoute, h1, h3, h4, h5, h6]
    decide
  · intro h1 h2 h3 h4 h5 h6 h7 h8 h9 h10
    simp [extractionRoute, h1, h2, h3, h4, h5, h6, h7, h8, h9, h10]

/-- C3 witness: an `application/octet-stream` upload whose key ends in
`.MP3` is routed to audio transcription. -/
theorem extraction_dispatch_precedence_witness :
    extractionRoute "application/octet-stream" "docs/u9_Song.MP3"
      = .transcribe "audio/" :=
  (extraction_dispatch_precedence "application/octet-stream"
      "docs/u9_Song.MP3").2.1 (by decide) rfl (Or.inl (by decide))

/-- C6 counterexample: a video moderation job whose polls all report the
terminal status `FAILED` does not make the poller raise `JobFailed` — the
loop skips non-`SUCCEEDED` statuses, exhausts its 12 attempts, and
`checkContentModeration` returns `.ok false`, contradicting the claim that
every polling loop raises `JobFailed` on a `FAILED` terminal status. -/
theorem poller_contract_counterexample :
    envVideoFailed.getContentModeration 0 = .ok ⟨"FAILED", []⟩
    ∧ checkContentModeration "video/mp4" envVideoFailed = .ok false :=
  ⟨rfl, rfl⟩

/-- C6 amended: the video moderation loop is bounded — its result depends
only on its first 12 polls — but exhausting the bound (or seeing `FAILED`)
yields a not-flagged `false` rather than raising `JobTimeout`/`JobFailed`;
the transcription loop does return the transcript payload on `COMPLETED`
and raise on `FAILED`, but it has no finite attempt bound: under a
never-terminal status it is still running after every finite number of
iterations and never raises `JobTimeout`. -/
theorem poller_behavior_amended :
    (∀ p q : Nat → Except String ModPoll, (∀ i, i < 12 → p i = q i) →
        videoModLoop p 0 12 = videoModLoop q 0 12)
    ∧ (∀ env : WorkerEnv, ∀ ft : String,
        strStartsWith ft "image/" = false →
        strStartsWith ft "video/" = true →
        env.startContentModeration = .ok () →
        (∀ i, i < 12 →
          ∃ r, env.getContentModeration i = .ok r ∧ r.jobStatus ≠ "SUCCEEDED") →
        checkContentModeration ft env = .ok false)
    ∧ (∀ poll : Nat → Except String String, ∀ tr : Except String String,
        ∀ fuel : Nat, poll 0 = .ok "COMPLETED" →
        transcribeLoop poll tr 0 (fuel + 1) = some tr)
    ∧ (∀ poll : Nat → Except String String, ∀ tr : Except String String,
        ∀ fuel : Nat, poll 0 = .ok "FAILED" →
        transcribeLoop poll tr 0 (fuel + 1)
          = some (.error "Transcription job failed"))
    ∧ (∀ poll : Nat → Except String String, ∀ tr : Except String String,
        ∀ fuel : Nat, (∀ i, poll i = .ok "IN_PROGRESS") →
        transcribeLoop poll tr 0 fuel = none) := by
  refine ⟨?_, ?_, ?_, ?_, ?_⟩
  · intro p q h
    exact videoModLoop_congr p q 0 12 fun j h1 h2 => h j (by omega)
  · intro env ft h1 h2 h3 h4
    have hloop := videoModLoop_exhaust env.getContentModeration 0 12
      fun j ha hb => h4 j (by omega)
    simp [checkContentModeration, h1, h2, h3, hloop]
  · intro poll tr fuel h
    simp [transcribeLoop, h]
  · intro poll tr fuel h
    simp [transcribeLoop, h]
  · intro poll tr fuel h
    exact transcribeLoop_stuck poll tr h 0 fuel

/-- C6 amended witness: a transcription job that reports `FAILED` on its
first poll makes the loop raise the transcription-failed error. -/
theorem poller_behavior_amended_witness :
    transcribeLoop (fun _ => .ok "FAILED") (.ok "hello") 0 1
      = some (.error "Transcription job failed") :=
  poller_behavior_amended.2.2.2.1 (fun _ => .ok "FAILED") (.ok "hello") 0 rfl

end LearningLab
